import Mathlib

/-!
Verification model of the fair-share rate-limiting reverse proxy in
access_api.py.  Python floats are modelled as exact rationals; monotonic
time is a rational-valued parameter threaded through every operation.
Decimal float literals of the source such as 1e-9, 1e-6 and 1e9 are
rendered as the exact rationals 1/1000000000, 1/1000000 and 1000000000.
-/

namespace AccessApi

/-! Configuration constants, at their default values (access_api.py lines 25-34,
with no environment overrides). -/

def LIMIT_PER_MIN : ℚ := 200

def RATE_G : ℚ := LIMIT_PER_MIN / 60

def CAP_G : ℚ := 200

def ACTIVE_WINDOW : ℚ := 5

def BURST_WINDOW : ℚ := 30

def PREFER_WAIT_DEFAULT : ℚ := 0

/-! TokenBucket (access_api.py lines 135-172). -/

structure TokenBucket where
  rate : ℚ
  cap : ℚ
  tokens : ℚ
  last : ℚ
  paused_until : ℚ
deriving DecidableEq, Repr

/-- Constructor: tokens start at cap, last at the current monotonic time,
paused_until at 0 (lines 137-142). -/
def TokenBucket.init (rate cap now : ℚ) : TokenBucket :=
  { rate := rate, cap := cap, tokens := cap, last := now, paused_until := 0 }

/-- The private _refill of lines 144-151: during a pause only last advances
(tokens accrued during a pause are forfeited); otherwise tokens grow by
rate * elapsed, capped at cap, when elapsed is positive. -/
def TokenBucket.refill (b : TokenBucket) (now : ℚ) : TokenBucket :=
  if now < b.paused_until then { b with last := now }
  else if 0 < now - b.last then
    { b with tokens := min b.cap (b.tokens + b.rate * (now - b.last)), last := now }
  else b

/-- take of lines 153-162: refill, then fail with the pause remainder while
paused, succeed by decrementing when tokens cover the cost, otherwise fail
with the wait until enough tokens accrue (1e9 when rate is not positive). -/
def TokenBucket.take (b : TokenBucket) (now cost : ℚ) : TokenBucket × Bool × ℚ :=
  let b1 := b.refill now
  if now < b1.paused_until then (b1, false, b1.paused_until - now)
  else if cost ≤ b1.tokens then ({ b1 with tokens := b1.tokens - cost }, true, 0)
  else (b1, false, if 0 < b1.rate then (cost - b1.tokens) / b1.rate else 1000000000)

/-- set_rate_cap of lines 164-169: refill at the old rate, then replace the
rate (floored at 1e-9) and, when given, the cap (floored at 1.0).  The
tokens field is not clamped to a reduced cap. -/
def TokenBucket.set_rate_cap (b : TokenBucket) (now rate : ℚ) (cap : Option ℚ) : TokenBucket :=
  let b1 := b.refill now
  let b2 := { b1 with rate := max (1/1000000000) rate }
  match cap with
  | none => b2
  | some c => { b2 with cap := max 1 c }

/-- pause of lines 171-172: extend paused_until, never shrink it. -/
def TokenBucket.pause (b : TokenBucket) (now seconds : ℚ) : TokenBucket :=
  { b with paused_until := max b.paused_until (now + max 0 seconds) }

/-! Operation sequences on a single bucket, for the observable-state
invariants. -/

inductive BucketOp where
  | take (now cost : ℚ)
  | setRateCap (now rate : ℚ) (cap : Option ℚ)
  | pause (now seconds : ℚ)
deriving DecidableEq, Repr

def TokenBucket.applyOp (b : TokenBucket) : BucketOp → TokenBucket
  | .take now cost => (b.take now cost).1
  | .setRateCap now r c => b.set_rate_cap now r c
  | .pause now s => b.pause now s

def TokenBucket.applyOps (b : TokenBucket) (ops : List BucketOp) : TokenBucket :=
  ops.foldl TokenBucket.applyOp b

/-- Nonnegative cost side condition for a take operation; the source only
ever calls take with the default cost 1.0. -/
def BucketOp.costNonneg : BucketOp → Prop
  | .take _ cost => 0 ≤ cost
  | _ => True

/-- Marks the operations other than set_rate_cap. -/
def BucketOp.isNotSetRateCap : BucketOp → Prop
  | .setRateCap _ _ _ => False
  | _ => True

/-- Structural well-formedness of a bucket: nonnegative rate, cap, tokens. -/
def TokenBucket.WF (b : TokenBucket) : Prop :=
  0 ≤ b.rate ∧ 0 ≤ b.cap ∧ 0 ≤ b.tokens

/-- Upper bound part of the observable-tokens invariant. -/
def TokenBucket.Bounded (b : TokenBucket) : Prop :=
  b.tokens ≤ b.cap

/-! ConnManager (access_api.py lines 174-202).  The two Python dicts
clients and last_seen are modelled as association lists; dict keys are
unique, so iterating per-key mutations is rendered as a map over the
entries, and dict pops as filters. -/

structure ConnManager where
  clients : List (String × TokenBucket)
  last_seen : List (String × ℚ)
  global_bucket : TokenBucket
deriving DecidableEq, Repr

/-- mark_active of lines 180-183: record last_seen and insert a dormant
bucket (rate 1e-6, cap 1.0) for a previously unknown connection id. -/
def ConnManager.mark_active (m : ConnManager) (cid : String) (now : ℚ) : ConnManager :=
  { m with
    last_seen :=
      if (m.last_seen.lookup cid).isSome then
        m.last_seen.map (fun p => if p.1 = cid then (cid, now) else p)
      else m.last_seen ++ [(cid, now)],
    clients :=
      if (m.clients.lookup cid).isSome then m.clients
      else m.clients ++ [(cid, TokenBucket.init (1/1000000) 1 now)] }

/-- The list of active connection ids computed at line 187: those whose
last_seen lies within ACTIVE_WINDOW of now. -/
def ConnManager.actives (m : ConnManager) (now : ℚ) : List String :=
  (m.last_seen.filter (fun p => decide (now - p.2 ≤ ACTIVE_WINDOW))).map Prod.fst

/-- rate_each of lines 188-189: the global per-minute limit divided by 60 and
by max(1, number of active connections). -/
def ConnManager.rate_each (m : ConnManager) (now : ℚ) : ℚ :=
  LIMIT_PER_MIN / 60 / ((max 1 (m.actives now).length : ℕ) : ℚ)

/-- cap_each of line 190: max(1.0, rate_each * BURST_WINDOW). -/
def ConnManager.cap_each (m : ConnManager) (now : ℚ) : ℚ :=
  max 1 (m.rate_each now * BURST_WINDOW)

/-- The eviction test of line 196: an id not in the active list whose
last_seen (defaulting to 0) lies more than 300 s in the past. -/
def ConnManager.evict (m : ConnManager) (now : ℚ) (cid : String) : Bool :=
  decide (cid ∉ m.actives now) && decide (300 < now - ((m.last_seen.lookup cid).getD 0))

/-- The first loop of prune_and_compute_rates (lines 191-192): every active
id gets set_rate_cap(rate_each, cap_each). -/
def ConnManager.rebalanceStep1 (m : ConnManager) (now : ℚ) : List (String × TokenBucket) :=
  m.clients.map (fun p =>
    if p.1 ∈ m.actives now then
      (p.1, p.2.set_rate_cap now (m.rate_each now) (some (m.cap_each now)))
    else p)

/-- The quench half of the second loop (line 195): every inactive id gets
set_rate_cap(1e-6, 1.0). -/
def ConnManager.rebalanceStep2 (m : ConnManager) (now : ℚ) : List (String × TokenBucket) :=
  (m.rebalanceStep1 now).map (fun p =>
    if p.1 ∈ m.actives now then p
    else (p.1, p.2.set_rate_cap now (1/1000000) (some 1)))

/-- The ids the second loop pops (lines 196-198): inactive for longer than
300 s.  The loop iterates the clients keys and pops from both dicts. -/
def ConnManager.evictedIds (m : ConnManager) (now : ℚ) : List String :=
  (m.clients.map Prod.fst).filter (fun cid => m.evict now cid)

/-- prune_and_compute_rates of lines 185-199: rebalance the active buckets,
quench the inactive ones, evict the long-idle ones from both dicts, and
return the actives list and rate_each, as the source does. -/
def ConnManager.prune_and_compute_rates (m : ConnManager) (now : ℚ) :
    ConnManager × List String × ℚ :=
  ({ clients := (m.rebalanceStep2 now).filter (fun p => ! m.evict now p.1),
     last_seen := m.last_seen.filter (fun p => decide (p.1 ∉ m.evictedIds now)),
     global_bucket := m.global_bucket },
   m.actives now, m.rate_each now)

/-! The synthesized local 429 response (access_api.py lines 381-391). -/

/-- Python round() with no digits: round half to even, as applied to the
exact rational value of the float argument. -/
def pyRound (x : ℚ) : ℤ :=
  if x - ⌊x⌋ < 1/2 then ⌊x⌋
  else if 1/2 < x - ⌊x⌋ then ⌊x⌋ + 1
  else if ⌊x⌋ % 2 = 0 then ⌊x⌋ else ⌊x⌋ + 1

/-- The JSON body fields and response headers of the synthesized local 429. -/
structure Local429 where
  status : ℕ
  detail : String
  wait_required_s : ℚ
  attempts : ℕ
  retry_after : ℤ
  x_wait_required : ℚ
  x_active_connections : ℕ
  x_rate_per_connection : ℚ
deriving DecidableEq, Repr

/-- Lines 381-391: body detail rate_limited_local with the wait and attempt
count, Retry-After max(0, int(round(wait))), X-Wait-Required wait,
X-Active-Connections max(1, len(actives)), X-Rate-Per-Connection rate_each. -/
def localRateLimitedResp (wait : ℚ) (attempts activesLen : ℕ) (rate_each : ℚ) : Local429 :=
  { status := 429
    detail := "rate_limited_local"
    wait_required_s := wait
    attempts := attempts
    retry_after := max 0 (pyRound wait)
    x_wait_required := wait
    x_active_connections := max 1 activesLen
    x_rate_per_connection := rate_each }

/-! The local admission loop (access_api.py lines 358-391).  Each iteration
is driven by one entry of a list of monotonic times; the list acts as fuel,
and none stands for an unbounded run. -/

inductive LocalOutcome where
  | admitted (gb cb : TokenBucket) (attempts : ℕ)
  | rejected (resp : Local429) (gb cb : TokenBucket)
deriving DecidableEq, Repr

/-- The retry condition of line 376: a deadline exists, the wait is positive
and now + wait still meets the deadline. -/
def canWaitLocal (deadline : Option ℚ) (now wait : ℚ) : Bool :=
  match deadline with
  | some d => decide (0 < wait) && decide (now + wait ≤ d)
  | none => false

/-- Lines 358-391: take one token from the global bucket and one from the
connection bucket; admit when both succeed; otherwise sleep and loop while
the deadline allows, else synthesize the local 429.  The consumed tokens of
a successful take are never returned on the failure path. -/
def localAdmission (activesLen : ℕ) (rate_each : ℚ) (deadline : Option ℚ) :
    TokenBucket → TokenBucket → ℕ → List ℚ → Option LocalOutcome
  | _, _, _, [] => none
  | gb, cb, attempts, now :: rest =>
    let tg := gb.take now 1
    let tc := cb.take now 1
    if tg.2.1 && tc.2.1 then some (.admitted tg.1 tc.1 (attempts + 1))
    else
      let wait := max tg.2.2 tc.2.2
      if canWaitLocal deadline now wait then
        localAdmission activesLen rate_each deadline tg.1 tc.1 (attempts + 1) rest
      else some (.rejected (localRateLimitedResp wait (attempts + 1) activesLen rate_each)
                   tg.1 tc.1)

/-! The upstream call-and-retry loop (access_api.py lines 393-490). -/

/-- An upstream response, reduced to its status code and the value the
helper _retry_after_seconds extracts from its Retry-After family of
headers (none when no such header yields a value). -/
structure UpstreamResp where
  status : ℕ
  retryAfterHdr : Option ℚ
deriving DecidableEq, Repr

/-- One attempted upstream call either yields a response or raises a
transport (connect/read/write) error in httpx. -/
inductive UpstreamEvent where
  | resp (r : UpstreamResp)
  | transportError
deriving DecidableEq, Repr

/-- One iteration of the upstream loop: the monotonic time at which it runs,
the random.uniform(0.1, 0.5) jitter sample the transient branch would draw,
and the outcome of the upstream call. -/
structure UpstreamStep where
  now : ℚ
  jitter : ℚ
  ev : UpstreamEvent
deriving DecidableEq, Repr

/-- FALLBACK_RA of line 39 combined with the .get default of line 404:
429 maps to 1.0 s, 503 to 60.0 s, anything else to the default 1.0. -/
def FALLBACK_RA (sc : ℕ) : ℚ :=
  if sc = 429 then 1 else if sc = 503 then 60 else 1

/-- Line 404: ra is the parsed header value or the fallback; the Python
or-expression also falls back when the parsed value is 0.0 (falsy). -/
def retryAfterOrFallback (hdr : Option ℚ) (sc : ℕ) : ℚ :=
  match hdr with
  | none => FALLBACK_RA sc
  | some v => if v = 0 then FALLBACK_RA sc else v

/-- The retry condition of lines 411 and 445: a deadline exists and
now + wait still meets it. -/
def canRetryUpstream (deadline : Option ℚ) (now wait : ℚ) : Bool :=
  match deadline with
  | some d => decide (now + wait ≤ d)
  | none => false

/-- Final outcome of the upstream loop, carrying the global bucket state at
return time.  The connection bucket does not appear: the loop of lines
398-490 never references it. -/
inductive UpstreamOutcome where
  | rateLimitedSurfaced (status : ℕ) (ra : ℚ) (retries : ℕ) (gb : TokenBucket)
  | transientSurfaced (status : ℕ) (retries : ℕ) (gb : TokenBucket)
  | terminal (status : ℕ) (retries : ℕ) (gb : TokenBucket)
  | transportFailure (gb : TokenBucket)
deriving DecidableEq, Repr

/-- The global bucket carried by an upstream outcome. -/
def UpstreamOutcome.gbOf : UpstreamOutcome → TokenBucket
  | .rateLimitedSurfaced _ _ _ gb => gb
  | .transientSurfaced _ _ gb => gb
  | .terminal _ _ gb => gb
  | .transportFailure gb => gb

/-- Lines 398-490.  A 429/503 response computes ra, pauses the global
bucket, and either re-forwards directly (continue, line 415) or surfaces the
upstream response; a transient 500/502/504 computes a jittered backoff wait
and either re-forwards directly (continue, line 450) or surfaces; any other
status is terminal.  A transport error propagates out of the handler.  The
step list acts as fuel. -/
def upstreamLoop (deadline : Option ℚ) :
    TokenBucket → ℕ → ℚ → List UpstreamStep → Option UpstreamOutcome
  | _, _, _, [] => none
  | gb, retries, backoff, step :: rest =>
    match step.ev with
    | .transportError => some (.transportFailure gb)
    | .resp r =>
      if r.status = 429 ∨ r.status = 503 then
        let ra := retryAfterOrFallback r.retryAfterHdr r.status
        let gb1 := gb.pause step.now ra
        if canRetryUpstream deadline step.now ra then
          upstreamLoop deadline gb1 (retries + 1) backoff rest
        else some (.rateLimitedSurfaced r.status ra retries gb1)
      else if r.status = 500 ∨ r.status = 502 ∨ r.status = 504 then
        let wait := min (backoff + step.jitter) 8
        if canRetryUpstream deadline step.now wait then
          upstreamLoop deadline gb (retries + 1) (min (backoff * 2) 8) rest
        else some (.transientSurfaced r.status retries gb)
      else some (.terminal r.status retries gb)

/-! The whole request path of the proxy handler, and the middleware that
wraps it (access_api.py lines 240-280 and 340-490). -/

inductive ProxyResult where
  | local429 (resp : Local429) (gb cb : TokenBucket)
  | upstream (out : UpstreamOutcome) (cb : TokenBucket)
deriving DecidableEq, Repr

/-- The proxy handler after identification: local admission (starting with
attempts 0, upstream_retries 0, backoff 1.0), then the upstream loop.  The
connection bucket attached to an upstream result is the one local admission
produced, since the upstream loop never touches it. -/
def proxyRun (activesLen : ℕ) (rate_each : ℚ) (deadline : Option ℚ)
    (gb cb : TokenBucket) (admitTimes : List ℚ) (steps : List UpstreamStep) :
    Option ProxyResult :=
  match localAdmission activesLen rate_each deadline gb cb 0 admitTimes with
  | none => none
  | some (.rejected resp gb1 cb1) => some (.local429 resp gb1 cb1)
  | some (.admitted gb1 cb1 _) =>
    match upstreamLoop deadline gb1 0 1 steps with
    | none => none
    | some out => some (.upstream out cb1)

/-- The status code and JSON detail field of the response the client
finally sees. -/
structure FinalResponse where
  status : ℕ
  detail : Option String
deriving DecidableEq, Repr

/-- The middleware add_request_id_and_access_log of lines 240-280: a normal
handler result passes through with its own status; any exception escaping
the handler, including httpx transport errors raised by _call_upstream_raw
(lines 322-331, which has no try/except), becomes a 500 with JSON detail
internal_error (line 253). -/
def renderResult : ProxyResult → FinalResponse
  | .local429 resp _ _ => { status := resp.status, detail := some resp.detail }
  | .upstream (.rateLimitedSurfaced sc _ _ _) _ => { status := sc, detail := none }
  | .upstream (.transientSurfaced sc _ _) _ => { status := sc, detail := none }
  | .upstream (.terminal sc _ _) _ => { status := sc, detail := none }
  | .upstream (.transportFailure _) _ => { status := 500, detail := some "internal_error" }

/-- Definition following the words of the specification, for comparison with
the source fallback FALLBACK_RA: the claimed fallback retry delay for a
rate-limited status with no Retry-After family header, as a function of the
status, the attempt count and the jitter sample u of U(-0.2, 0.2): for 429
base 1 grown by 1 + 0.5 * min(attempt, 10), for 503 base 5 grown by
2 ^ min(attempt, 6), jittered by 1 + u and clamped to the interval from 0
to 300. -/
def specFallbackDelay (sc attempt : ℕ) (u : ℚ) : ℚ :=
  let base : ℚ := if sc = 429 then 1 else 5
  let grown : ℚ :=
    if sc = 429 then base * (1 + (1/2) * ((min attempt 10 : ℕ) : ℚ))
    else base * 2 ^ (min attempt 6)
  max 0 (min 300 (grown * (1 + u)))

/-! The diagnostic endpoint.  Its handler is not part of src/: the test
harness calls GET /__status on the proxy (run_local_tests.py line 155) and
the specification documents the endpoint, but the proxy variant containing
it is absent, so it is modelled from the specification. -/

/-- Modelled from the spec: the per-caller diagnostic data of the status
endpoint of the proxy variant missing from src/: the caller general limit
and its current token count. -/
structure CallerInfo where
  general_limit : ℚ
  current_tokens : ℚ
deriving DecidableEq, Repr

/-- The JSON body of the status endpoint: a field n_callers and a callers
object mapping each id to the pair of general limit and current tokens. -/
structure StatusBody where
  n_callers : ℕ
  callers : List (String × ℚ × ℚ)
deriving DecidableEq, Repr

/-- How the proxy disposes of an incoming request: answered locally by the
diagnostic endpoint, or forwarded upstream. -/
inductive RouteDecision where
  | answeredLocally (body : StatusBody)
  | forwardedUpstream (method path : String)
deriving DecidableEq, Repr

/-- Modelled from the spec: the GET /__status handler missing from src/
(its caller is run_local_tests.py line 155): it returns n_callers and, per
registered caller, the pair of general limit and current tokens. -/
def statusResponse (callers : List (String × CallerInfo)) : StatusBody :=
  { n_callers := callers.length
    callers := callers.map (fun p => (p.1, p.2.general_limit, p.2.current_tokens)) }

/-- Modelled from the spec: request routing of the proxy variant missing
from src/: a GET to /__status is answered by the proxy itself and any other
request is forwarded upstream. -/
def routeRequest (callers : List (String × CallerInfo)) (method path : String) :
    RouteDecision :=
  if method = "GET" ∧ path = "/__status" then .answeredLocally (statusResponse callers)
  else .forwardedUpstream method path

/-! Concrete states used by the closed counterexample and witness
statements. -/

/-- The global bucket as created at startup (line 178) with default
configuration, taking process start as time 0. -/
def gbStart : TokenBucket := TokenBucket.init RATE_G CAP_G 0

/-- A per-connection bucket after a rebalance among two active connections,
full at time 0. -/
def cbStart : TokenBucket :=
  { rate := 5/3, cap := 50, tokens := 50, last := 0, paused_until := 0 }

/-- A global bucket that is out of tokens at time 0, with rate 5/2. -/
def gbDrained : TokenBucket :=
  { rate := 5/2, cap := 10, tokens := 0, last := 0, paused_until := 0 }

/-- A connection bucket holding exactly one token at time 0. -/
def cbOne : TokenBucket :=
  { rate := 1, cap := 1, tokens := 1, last := 0, paused_until := 0 }

/-- A connection bucket that is out of tokens at time 0. -/
def cbEmpty : TokenBucket :=
  { rate := 1, cap := 1, tokens := 0, last := 0, paused_until := 0 }

/-- A two-connection manager: connection a is active at time 10, connection
b was last seen at time 0 and is inactive but not yet evictable. -/
def sampleManager : ConnManager :=
  { clients := [("a", TokenBucket.init (1/1000000) 1 0), ("b", TokenBucket.init (1/1000000) 1 0)]
    last_seen := [("a", 10), ("b", 0)]
    global_bucket := gbStart }

lemma TokenBucket.refill_rate (b : TokenBucket) (now : ℚ) :
    (b.refill now).rate = b.rate := by
  unfold TokenBucket.refill; split_ifs <;> rfl

lemma TokenBucket.refill_cap (b : TokenBucket) (now : ℚ) :
    (b.refill now).cap = b.cap := by
  unfold TokenBucket.refill; split_ifs <;> rfl

lemma TokenBucket.refill_paused (b : TokenBucket) (now : ℚ) :
    (b.refill now).paused_until = b.paused_until := by
  unfold TokenBucket.refill; split_ifs <;> rfl

lemma TokenBucket.refill_WF (b : TokenBucket) (now : ℚ) (h : b.WF) :
    (b.refill now).WF := by
  obtain ⟨hr, hc, ht⟩ := h
  unfold TokenBucket.refill TokenBucket.WF
  split_ifs with h1 h2
  · exact ⟨hr, hc, ht⟩
  · refine ⟨hr, hc, le_min hc ?_⟩
    have : 0 ≤ b.rate * (now - b.last) := mul_nonneg hr (le_of_lt h2)
    linarith
  · exact ⟨hr, hc, ht⟩

lemma TokenBucket.refill_Bounded (b : TokenBucket) (now : ℚ) (h : b.Bounded) :
    (b.refill now).Bounded := by
  unfold TokenBucket.refill TokenBucket.Bounded
  split_ifs with h1 h2
  · exact h
  · exact min_le_left _ _
  · exact h

lemma TokenBucket.take_WF (b : TokenBucket) (now cost : ℚ) (h : b.WF) :
    ((b.take now cost).1).WF := by
  have hw := b.refill_WF now h
  obtain ⟨hr, hc, ht⟩ := hw
  unfold TokenBucket.take
  dsimp only
  split_ifs with h1 h2 h3
  · exact ⟨hr, hc, ht⟩
  · exact ⟨hr, hc, by simpa using sub_nonneg.mpr h2⟩
  · exact ⟨hr, hc, ht⟩
  · exact ⟨hr, hc, ht⟩

lemma TokenBucket.take_Bounded (b : TokenBucket) (now cost : ℚ)
    (hcost : 0 ≤ cost) (h : b.Bounded) :
    ((b.take now cost).1).Bounded := by
  have hb := b.refill_Bounded now h
  unfold TokenBucket.take
  dsimp only
  split_ifs with h1 h2 h3
  · exact hb
  · unfold TokenBucket.Bounded at hb ⊢
    simp only
    linarith
  · exact hb
  · exact hb

lemma TokenBucket.take_cap (b : TokenBucket) (now cost : ℚ) :
    ((b.take now cost).1).cap = b.cap := by
  unfold TokenBucket.take
  dsimp only
  split_ifs <;> simp [TokenBucket.refill_cap]

lemma TokenBucket.set_rate_cap_WF (b : TokenBucket) (now r : ℚ) (c : Option ℚ)
    (h : b.WF) : (b.set_rate_cap now r c).WF := by
  have hw := b.refill_WF now h
  obtain ⟨hr, hc, ht⟩ := hw
  unfold TokenBucket.set_rate_cap
  cases c with
  | none =>
      refine ⟨le_max_of_le_left (by norm_num), hc, ht⟩
  | some v =>
      refine ⟨le_max_of_le_left (by norm_num), le_max_of_le_left (by norm_num), ht⟩

lemma TokenBucket.pause_WF (b : TokenBucket) (now s : ℚ) (h : b.WF) :
    (b.pause now s).WF := h

lemma TokenBucket.pause_Bounded (b : TokenBucket) (now s : ℚ) (h : b.Bounded) :
    (b.pause now s).Bounded := h

lemma TokenBucket.applyOp_WF (b : TokenBucket) (op : BucketOp) (h : b.WF) :
    (b.applyOp op).WF := by
  cases op with
  | take now cost => exact b.take_WF now cost h
  | setRateCap now r c => exact b.set_rate_cap_WF now r c h
  | pause now s => exact b.pause_WF now s h

lemma TokenBucket.applyOps_WF :
    ∀ (ops : List BucketOp) (b : TokenBucket), b.WF → (b.applyOps ops).WF
  | [], _, h => h
  | op :: ops, b, h =>
      TokenBucket.applyOps_WF ops (b.applyOp op) (b.applyOp_WF op h)

lemma TokenBucket.take_eq (b : TokenBucket) (now cost : ℚ) :
    b.take now cost =
      if now < (b.refill now).paused_until
      then (b.refill now, false, (b.refill now).paused_until - now)
      else if cost ≤ (b.refill now).tokens
      then ({ b.refill now with tokens := (b.refill now).tokens - cost }, true, 0)
      else (b.refill now, false,
            if 0 < (b.refill now).rate then (cost - (b.refill now).tokens) / (b.refill now).rate
            else 1000000000) := rfl

lemma TokenBucket.refill_of_paused (b : TokenBucket) (now : ℚ) (h : now < b.paused_until) :
    b.refill now = { b with last := now } := by
  unfold TokenBucket.refill
  rw [if_pos h]

lemma TokenBucket.take_tokens_of_success (b : TokenBucket) (now cost : ℚ)
    (h : (b.take now cost).2.1 = true) :
    (b.take now cost).1.tokens = (b.refill now).tokens - cost := by
  rw [TokenBucket.take_eq] at h ⊢
  by_cases h1 : now < (b.refill now).paused_until
  · rw [if_pos h1] at h
    simp at h
  · rw [if_neg h1] at h ⊢
    by_cases h2 : cost ≤ (b.refill now).tokens
    · rw [if_pos h2]
    · rw [if_neg h2] at h
      simp at h

lemma TokenBucket.pause_rate (b : TokenBucket) (now s : ℚ) :
    (b.pause now s).rate = b.rate := rfl

lemma TokenBucket.pause_cap (b : TokenBucket) (now s : ℚ) :
    (b.pause now s).cap = b.cap := rfl

lemma TokenBucket.pause_tokens (b : TokenBucket) (now s : ℚ) :
    (b.pause now s).tokens = b.tokens := rfl

lemma TokenBucket.pause_last (b : TokenBucket) (now s : ℚ) :
    (b.pause now s).last = b.last := rfl

lemma TokenBucket.pause_paused_le (b : TokenBucket) (now s : ℚ) :
    b.paused_until ≤ (b.pause now s).paused_until := le_max_left _ _

lemma TokenBucket.set_rate_cap_rate (b : TokenBucket) (now r : ℚ) (c : Option ℚ) :
    (b.set_rate_cap now r c).rate = max (1/1000000000) r := by
  unfold TokenBucket.set_rate_cap
  cases c <;> rfl

lemma TokenBucket.set_rate_cap_cap_some (b : TokenBucket) (now r c : ℚ) :
    (b.set_rate_cap now r (some c)).cap = max 1 c := rfl

lemma TokenBucket.take_paused (b : TokenBucket) (now cost : ℚ) :
    ((b.take now cost).1).paused_until = b.paused_until := by
  rw [TokenBucket.take_eq]
  split_ifs <;> simp [TokenBucket.refill_paused]

lemma TokenBucket.set_rate_cap_paused (b : TokenBucket) (now r : ℚ) (c : Option ℚ) :
    (b.set_rate_cap now r c).paused_until = b.paused_until := by
  unfold TokenBucket.set_rate_cap
  cases c <;> simp [TokenBucket.refill_paused]

lemma TokenBucket.applyOp_paused_le (b : TokenBucket) (op : BucketOp) :
    b.paused_until ≤ (b.applyOp op).paused_until := by
  cases op with
  | take now cost => rw [TokenBucket.applyOp, b.take_paused]
  | setRateCap now r c => rw [TokenBucket.applyOp, b.set_rate_cap_paused]
  | pause now s => exact b.pause_paused_le now s

lemma TokenBucket.applyOps_paused_le :
    ∀ (ops : List BucketOp) (b : TokenBucket),
      b.paused_until ≤ (b.applyOps ops).paused_until
  | [], _ => le_refl _
  | op :: ops, b =>
      le_trans (b.applyOp_paused_le op)
        (TokenBucket.applyOps_paused_le ops (b.applyOp op))

lemma localAdmission_cons (aL : ℕ) (re : ℚ) (dl : Option ℚ) (gb cb : TokenBucket)
    (n : ℕ) (now : ℚ) (ts : List ℚ) :
    localAdmission aL re dl gb cb n (now :: ts)
      = if (gb.take now 1).2.1 && (cb.take now 1).2.1
        then some (.admitted (gb.take now 1).1 (cb.take now 1).1 (n + 1))
        else if canWaitLocal dl now (max (gb.take now 1).2.2 (cb.take now 1).2.2)
        then localAdmission aL re dl (gb.take now 1).1 (cb.take now 1).1 (n + 1) ts
        else some (.rejected
              (localRateLimitedResp (max (gb.take now 1).2.2 (cb.take now 1).2.2)
                (n + 1) aL re)
              (gb.take now 1).1 (cb.take now 1).1) := rfl

lemma upstreamLoop_cons (dl : Option ℚ) (gb : TokenBucket) (retries : ℕ) (backoff : ℚ)
    (step : UpstreamStep) (rest : List UpstreamStep) :
    upstreamLoop dl gb retries backoff (step :: rest)
      = match step.ev with
        | .transportError => some (.transportFailure gb)
        | .resp r =>
          if r.status = 429 ∨ r.status = 503 then
            if canRetryUpstream dl step.now (retryAfterOrFallback r.retryAfterHdr r.status) then
              upstreamLoop dl
                (gb.pause step.now (retryAfterOrFallback r.retryAfterHdr r.status))
                (retries + 1) backoff rest
            else some (.rateLimitedSurfaced r.status
                  (retryAfterOrFallback r.retryAfterHdr r.status) retries
                  (gb.pause step.now (retryAfterOrFallback r.retryAfterHdr r.status)))
          else if r.status = 500 ∨ r.status = 502 ∨ r.status = 504 then
            if canRetryUpstream dl step.now (min (backoff + step.jitter) 8) then
              upstreamLoop dl gb (retries + 1) (min (backoff * 2) 8) rest
            else some (.transientSurfaced r.status retries gb)
          else some (.terminal r.status retries gb) := rfl

lemma TokenBucket.applyOps_Bounded :
    ∀ (ops : List BucketOp) (b : TokenBucket),
      (∀ op ∈ ops, op.isNotSetRateCap ∧ op.costNonneg) →
      b.Bounded → (b.applyOps ops).Bounded
  | [], _, _, h => h
  | op :: ops, b, hops, h => by
      have hop := hops op (List.mem_cons_self op ops)
      have hrest : ∀ o ∈ ops, o.isNotSetRateCap ∧ o.costNonneg :=
        fun o ho => hops o (List.mem_cons_of_mem op ho)
      refine TokenBucket.applyOps_Bounded ops (b.applyOp op) hrest ?_
      cases op with
      | take now cost => exact b.take_Bounded now cost hop.2 h
      | setRateCap now r c => exact absurd hop.1 (by simp [BucketOp.isNotSetRateCap])
      | pause now s => exact b.pause_Bounded now s h

/-! Claim theorems. -/

unseal Rat.add Rat.mul Rat.sub Rat.inv in
/-- C3 counterexample: starting from a fresh bucket with rate 1 and
capacity 10 (thus 10 tokens), set_rate_cap(1, cap=1) leaves tokens at 10
while the capacity drops to 1, so the observable tokens exceed the
capacity: set_rate_cap does not clamp tokens down to the new capacity. -/
theorem C3_counterexample :
    ((TokenBucket.init 1 10 0).applyOps [.setRateCap 0 1 (some 1)]).tokens = 10 ∧
    ((TokenBucket.init 1 10 0).applyOps [.setRateCap 0 1 (some 1)]).cap = 1 ∧
    ¬ (((TokenBucket.init 1 10 0).applyOps [.setRateCap 0 1 (some 1)]).tokens
        ≤ ((TokenBucket.init 1 10 0).applyOps [.setRateCap 0 1 (some 1)]).cap) := by
  decide

/-- C3 as amended: for every operation sequence on a well-formed bucket
(nonnegative rate, capacity and tokens), tokens stay nonnegative; and
tokens stay below the capacity for every sequence of take (with
nonnegative cost) and pause operations, but not in general once
set_rate_cap appears, since set_rate_cap does not clamp tokens to a
reduced capacity. -/
theorem C3_amended (b : TokenBucket) (ops : List BucketOp) (hb : b.WF) :
    (b.applyOps ops).WF ∧
    ((∀ op ∈ ops, op.isNotSetRateCap ∧ op.costNonneg) → b.Bounded →
      (b.applyOps ops).Bounded) :=
  ⟨TokenBucket.applyOps_WF ops b hb,
   fun hops hbd => TokenBucket.applyOps_Bounded ops b hops hbd⟩

/-- C3 witness: a concrete take/pause/take run on a fresh bucket keeps the
invariants. -/
theorem C3_witness :
    ((TokenBucket.init 1 10 0).applyOps
        [.take 0 1, .pause 0 5, .take 1 1]).WF ∧
    ((TokenBucket.init 1 10 0).applyOps
        [.take 0 1, .pause 0 5, .take 1 1]).Bounded := by
  have hb : (TokenBucket.init 1 10 0).WF := by
    refine ⟨?_, ?_, ?_⟩ <;> norm_num [TokenBucket.init]
  have h := C3_amended (TokenBucket.init 1 10 0) [.take 0 1, .pause 0 5, .take 1 1] hb
  refine ⟨h.1, h.2 ?_ ?_⟩
  · intro op hop
    simp only [List.mem_cons, List.not_mem_nil, or_false] at hop
    rcases hop with rfl | rfl | rfl
    · exact ⟨trivial, by norm_num [BucketOp.costNonneg]⟩
    · exact ⟨trivial, trivial⟩
    · exact ⟨trivial, by norm_num [BucketOp.costNonneg]⟩
  · show (TokenBucket.init 1 10 0).tokens ≤ (TokenBucket.init 1 10 0).cap
    norm_num [TokenBucket.init]

/-- C9: pause sets paused_until to max(paused_until, now + max(0, seconds)),
and no operation sequence (take, set_rate_cap, pause) ever decreases
paused_until, so causally ordered observations are non-decreasing. -/
theorem C9_pause_monotone :
    (∀ (b : TokenBucket) (now s : ℚ),
        (b.pause now s).paused_until = max b.paused_until (now + max 0 s)) ∧
    ∀ (b : TokenBucket) (ops : List BucketOp),
        b.paused_until ≤ (b.applyOps ops).paused_until := by
  constructor
  · intro b now s
    rfl
  · intro b ops
    exact TokenBucket.applyOps_paused_le ops b

/-- C7: take(cost) at monotonic time now, on a bucket with positive rate:
while paused it returns false with wait paused_until - now, leaves the
tokens unchanged and does not advance last past paused_until; otherwise,
after the refill (tokens grown by rate times elapsed, capped at the
capacity), it either decrements by cost and returns true with wait 0, or
leaves tokens unchanged and returns false with wait
(cost - tokens) / rate. -/
theorem C7_take_semantics (b : TokenBucket) (now cost : ℚ) (hrate : 0 < b.rate) :
    (now < b.paused_until →
      (b.take now cost).2.1 = false ∧
      (b.take now cost).2.2 = b.paused_until - now ∧
      (b.take now cost).1.last ≤ b.paused_until ∧
      (b.take now cost).1.tokens = b.tokens) ∧
    (b.paused_until ≤ now →
      (b.refill now).tokens
          = (if 0 < now - b.last then min b.cap (b.tokens + b.rate * (now - b.last))
             else b.tokens) ∧
      (cost ≤ (b.refill now).tokens →
        (b.take now cost).2.1 = true ∧ (b.take now cost).2.2 = 0 ∧
        (b.take now cost).1.tokens = (b.refill now).tokens - cost) ∧
      ((b.refill now).tokens < cost →
        (b.take now cost).2.1 = false ∧
        (b.take now cost).2.2 = (cost - (b.refill now).tokens) / b.rate ∧
        (b.take now cost).1.tokens = (b.refill now).tokens)) := by
  constructor
  · intro hp
    rw [TokenBucket.take_eq, TokenBucket.refill_paused, if_pos hp,
      TokenBucket.refill_of_paused b now hp]
    exact ⟨rfl, rfl, le_of_lt hp, rfl⟩
  · intro hp
    have hnp : ¬ now < b.paused_until := not_lt.mpr hp
    refine ⟨?_, ?_, ?_⟩
    · unfold TokenBucket.refill
      rw [if_neg hnp]
      split_ifs <;> rfl
    · intro hc
      rw [TokenBucket.take_eq, TokenBucket.refill_paused, if_neg hnp, if_pos hc]
      exact ⟨rfl, rfl, rfl⟩
    · intro hc
      rw [TokenBucket.take_eq, TokenBucket.refill_paused, if_neg hnp,
        if_neg (not_le.mpr hc), TokenBucket.refill_rate, if_pos hrate]
      exact ⟨rfl, rfl, rfl⟩

unseal Rat.add Rat.mul Rat.sub Rat.inv in
/-- C7 witness: a drained bucket with rate 5/2 at time 0 refuses the take
and reports wait (1 - 0) / (5/2) without changing tokens. -/
theorem C7_witness :
    (0:ℚ) < gbDrained.rate ∧
    (gbDrained.take 0 1).2.1 = false ∧
    (gbDrained.take 0 1).2.2 = (1 - (gbDrained.refill 0).tokens) / gbDrained.rate ∧
    (gbDrained.take 0 1).1.tokens = (gbDrained.refill 0).tokens := by
  have h0 : (0:ℚ) < gbDrained.rate := by norm_num [gbDrained]
  have h := C7_take_semantics gbDrained 0 1 h0
  have h2 := (h.2 (by norm_num [gbDrained])).2.2 (by decide)
  exact ⟨h0, h2.1, h2.2.1, h2.2.2⟩

/-- C10: in a local admission iteration where the global take succeeds and
the connection take fails, the global bucket loses one token (relative to
its refilled state) and, with no deadline, the iteration ends in the
synthesized local 429 carrying that decremented global bucket: the
consumed global token is not returned on the error path. -/
theorem C10_global_token_not_refunded
    (gb cb : TokenBucket) (now : ℚ) (n aL : ℕ) (re : ℚ) (rest : List ℚ)
    (hg : (gb.take now 1).2.1 = true) (hc : (cb.take now 1).2.1 = false) :
    (gb.take now 1).1.tokens = (gb.refill now).tokens - 1 ∧
    localAdmission aL re none gb cb n (now :: rest)
      = some (.rejected
          (localRateLimitedResp (max (gb.take now 1).2.2 (cb.take now 1).2.2)
            (n + 1) aL re)
          (gb.take now 1).1 (cb.take now 1).1) := by
  constructor
  · exact gb.take_tokens_of_success now 1 hg
  · rw [localAdmission_cons, hg, hc]
    simp [canWaitLocal]

unseal Rat.add Rat.mul Rat.sub Rat.inv in
/-- C10 witness: a full global bucket and an empty connection bucket at
time 0 with no deadline end in the local 429 with the global token gone. -/
theorem C10_witness :
    ((TokenBucket.init 1 10 0).take 0 1).2.1 = true ∧
    (cbEmpty.take 0 1).2.1 = false ∧
    (((TokenBucket.init 1 10 0).take 0 1).1.tokens
        = ((TokenBucket.init 1 10 0).refill 0).tokens - 1 ∧
      localAdmission 1 1 none (TokenBucket.init 1 10 0) cbEmpty 0 [0]
        = some (.rejected
            (localRateLimitedResp
              (max ((TokenBucket.init 1 10 0).take 0 1).2.2 (cbEmpty.take 0 1).2.2)
              1 1 1)
            ((TokenBucket.init 1 10 0).take 0 1).1 (cbEmpty.take 0 1).1)) :=
  ⟨by decide, by decide,
   C10_global_token_not_refunded (TokenBucket.init 1 10 0) cbEmpty 0 0 1 1 []
     (by decide) (by decide)⟩

unseal Rat.add Rat.mul Rat.sub Rat.inv in
/-- C4 counterexample: a drained global bucket with rate 5/2 and no
deadline rejects with wait 2/5, and the synthesized Retry-After header is
max(0, round(2/5)) = 0, not ceil(2/5) = 1. -/
theorem C4_counterexample :
    localAdmission 1 (10/3) none gbDrained cbOne 0 [0]
      = some (.rejected (localRateLimitedResp (2/5) 1 1 (10/3)) gbDrained cbEmpty) ∧
    (localRateLimitedResp (2/5) 1 1 (10/3)).retry_after = 0 ∧
    ¬ ((localRateLimitedResp (2/5) 1 1 (10/3)).retry_after
        = ⌈(localRateLimitedResp (2/5) 1 1 (10/3)).wait_required_s⌉) := by
  decide

/-- C4 as amended: whenever the local admission loop rejects, the
synthesized response has status 429, body detail rate_limited_local with
wait_required_s and the attempt count, X-Wait-Required equal to the wait,
Retry-After equal to max(0, round(wait)) with round half to even (not
ceil), X-Active-Connections max(1, actives) and X-Rate-Per-Connection
rate_each. -/
theorem C4_amended (aL : ℕ) (re : ℚ) (dl : Option ℚ) (gb cb gbf cbf : TokenBucket)
    (n : ℕ) (ts : List ℚ) (resp : Local429)
    (h : localAdmission aL re dl gb cb n ts = some (.rejected resp gbf cbf)) :
    resp.status = 429 ∧ resp.detail = "rate_limited_local" ∧
    resp.x_wait_required = resp.wait_required_s ∧
    resp.retry_after = max 0 (pyRound resp.wait_required_s) ∧
    resp.x_active_connections = max 1 aL ∧
    resp.x_rate_per_connection = re := by
  induction ts generalizing gb cb n with
  | nil => simp [localAdmission] at h
  | cons now rest ih =>
    rw [localAdmission_cons] at h
    split_ifs at h with h1 h2
    · simp at h
    · exact ih _ _ _ h
    · simp only [Option.some.injEq, LocalOutcome.rejected.injEq] at h
      obtain ⟨hr, -, -⟩ := h
      subst hr
      exact ⟨rfl, rfl, rfl, rfl, rfl, rfl⟩

unseal Rat.add Rat.mul Rat.sub Rat.inv in
/-- C4 witness: a concrete one-iteration rejection satisfies the amended
description. -/
theorem C4_witness :
    localAdmission 2 2 none (TokenBucket.init 1 10 0) cbEmpty 0 [0]
      = some (.rejected (localRateLimitedResp 1 1 2 2)
          { rate := 1, cap := 10, tokens := 9, last := 0, paused_until := 0 } cbEmpty) ∧
    ((localRateLimitedResp 1 1 2 2).status = 429 ∧
      (localRateLimitedResp 1 1 2 2).detail = "rate_limited_local" ∧
      (localRateLimitedResp 1 1 2 2).x_wait_required
        = (localRateLimitedResp 1 1 2 2).wait_required_s ∧
      (localRateLimitedResp 1 1 2 2).retry_after
        = max 0 (pyRound (localRateLimitedResp 1 1 2 2).wait_required_s) ∧
      (localRateLimitedResp 1 1 2 2).x_active_connections = max 1 2 ∧
      (localRateLimitedResp 1 1 2 2).x_rate_per_connection = 2) :=
  ⟨by decide,
   C4_amended 2 2 none (TokenBucket.init 1 10 0) cbEmpty
     { rate := 1, cap := 10, tokens := 9, last := 0, paused_until := 0 } cbEmpty 0 [0]
     (localRateLimitedResp 1 1 2 2) (by decide)⟩

unseal Rat.add Rat.mul Rat.sub Rat.inv in
/-- C2 counterexample: a 503 with no Retry-After family header at attempt 0
makes the upstream loop use the constant fallback of 60 s, while the delay
formula claimed by the specification evaluates to 6 at the maximal jitter
sample 1/5 (and to 4 at the minimal sample -1/5), so the constant 60 is
not the claimed value and even exceeds its largest possible value. -/
theorem C2_counterexample :
    upstreamLoop none gbStart 0 1 [⟨0, 0, .resp ⟨503, none⟩⟩]
      = some (.rateLimitedSurfaced 503 60 0 (gbStart.pause 0 60)) ∧
    specFallbackDelay 503 0 (1/5) = 6 ∧
    specFallbackDelay 503 0 (-(1/5)) = 4 ∧
    ¬ ((60 : ℚ) ≤ specFallbackDelay 503 0 (1/5)) := by
  decide

/-- C2 as amended: for an upstream 429 or 503 carrying no Retry-After
family header value, the retry delay is the constant FALLBACK_RA value,
1 s for 429 and 60 s for 503, with no attempt-based growth, no jitter and
no clamping; the loop pauses the global bucket by that amount and, with no
deadline, surfaces the response carrying that value. -/
theorem C2_amended (gb : TokenBucket) (retries : ℕ) (backoff : ℚ)
    (step : UpstreamStep) (rest : List UpstreamStep) (r : UpstreamResp)
    (hev : step.ev = .resp r) (hhdr : r.retryAfterHdr = none)
    (hsc : r.status = 429 ∨ r.status = 503) :
    upstreamLoop none gb retries backoff (step :: rest)
      = some (.rateLimitedSurfaced r.status (if r.status = 429 then 1 else 60) retries
          (gb.pause step.now (if r.status = 429 then 1 else 60))) := by
  rw [upstreamLoop_cons, hev]
  rcases hsc with h429 | h503
  · simp [h429, retryAfterOrFallback, FALLBACK_RA, hhdr, canRetryUpstream]
  · simp [h503, retryAfterOrFallback, FALLBACK_RA, hhdr, canRetryUpstream]

unseal Rat.add Rat.mul Rat.sub Rat.inv in
/-- C2 witness: a headerless 503 at time 0 with no deadline surfaces with
the fallback 60 and pauses the global bucket by 60. -/
theorem C2_witness :
    (UpstreamStep.mk 0 0 (.resp ⟨503, none⟩)).ev = .resp ⟨503, none⟩ ∧
    upstreamLoop none gbStart 0 1 [⟨0, 0, .resp ⟨503, none⟩⟩]
      = some (.rateLimitedSurfaced 503 (if (503 : ℕ) = 429 then 1 else 60) 0
          (gbStart.pause 0 (if (503 : ℕ) = 429 then 1 else 60))) :=
  ⟨rfl, C2_amended gbStart 0 1 ⟨0, 0, .resp ⟨503, none⟩⟩ [] ⟨503, none⟩ rfl rfl
      (Or.inr rfl)⟩

unseal Rat.add Rat.mul Rat.sub Rat.inv in
/-- C5 counterexample: a transport error on the upstream call produces,
through the middleware, a 500 with detail internal_error, not a 502 with
detail upstream_unreachable. -/
theorem C5_counterexample :
    (proxyRun 2 (5/3) none gbStart cbStart [0] [⟨1, 0, .transportError⟩]).map renderResult
      = some { status := 500, detail := some "internal_error" } ∧
    ¬ ((proxyRun 2 (5/3) none gbStart cbStart [0] [⟨1, 0, .transportError⟩]).map renderResult
        = some { status := 502, detail := some "upstream_unreachable" }) := by
  decide

/-- C5 as amended: a transport (connect/read/write) error on an upstream
call aborts the upstream loop at that iteration, and the middleware maps
the escaped exception to HTTP 500 with JSON detail internal_error; there
is no 502 upstream_unreachable conversion in the handler. -/
theorem C5_amended (dl : Option ℚ) (gb cb : TokenBucket) (retries : ℕ) (backoff : ℚ)
    (step : UpstreamStep) (rest : List UpstreamStep)
    (hev : step.ev = .transportError) :
    upstreamLoop dl gb retries backoff (step :: rest) = some (.transportFailure gb) ∧
    renderResult (.upstream (.transportFailure gb) cb)
      = { status := 500, detail := some "internal_error" } := by
  constructor
  · rw [upstreamLoop_cons, hev]
  · rfl

/-- C5 witness: a transport error at the first upstream call. -/
theorem C5_witness :
    (UpstreamStep.mk 1 0 .transportError).ev = .transportError ∧
    (upstreamLoop none gbStart 0 1 [⟨1, 0, .transportError⟩]
        = some (.transportFailure gbStart) ∧
      renderResult (.upstream (.transportFailure gbStart) cbStart)
        = { status := 500, detail := some "internal_error" }) :=
  ⟨rfl, C5_amended none gbStart cbStart 0 1 ⟨1, 0, .transportError⟩ [] rfl⟩

/-- C6: a GET request to /__status is answered by the proxy itself with a
body containing n_callers, the number of registered connections, and a
callers object mapping each registered id to the pair of its general limit
and current tokens (modelled from the spec, the handler being absent from
src/). -/
theorem C6_status_endpoint (callers : List (String × CallerInfo)) :
    routeRequest callers "GET" "/__status" = .answeredLocally (statusResponse callers) ∧
    (statusResponse callers).n_callers = callers.length ∧
    (statusResponse callers).callers
      = callers.map (fun p => (p.1, p.2.general_limit, p.2.current_tokens)) := by
  refine ⟨?_, rfl, rfl⟩
  unfold routeRequest
  rw [if_pos ⟨rfl, rfl⟩]

unseal Rat.add Rat.mul Rat.sub Rat.inv in
/-- C1 counterexample: with deadline 100, admission at time 0 consumes one
token from each bucket (connection tokens 50 to 49); the upstream answers
429 with Retry-After 1, the retry fits the deadline, and the immediate
re-forward at time 0 gets a 200.  The final connection bucket still holds
49 tokens and the global bucket changed only by the pause: the rate-limited
retry re-forwarded directly and did not re-enter local admission, which at
time 0 would have consumed a second token from each bucket, leaving at
most 48. -/
theorem C1_counterexample :
    proxyRun 2 (5/3) (some 100) gbStart cbStart [0]
        [⟨0, 0, .resp ⟨429, some 1⟩⟩, ⟨0, 0, .resp ⟨200, none⟩⟩]
      = some (.upstream (.terminal 200 1
            { rate := 10/3, cap := 200, tokens := 199, last := 0, paused_until := 1 })
          { rate := 5/3, cap := 50, tokens := 49, last := 0, paused_until := 0 }) ∧
    ¬ (({ rate := 5/3, cap := 50, tokens := 49, last := 0, paused_until := 0 } :
          TokenBucket).tokens ≤ cbStart.tokens - 2) := by
  decide

/-- C1 as amended: the upstream retry loop never re-enters local admission
for either branch.  Whatever outcome it produces, the global bucket it
carries differs from the one it started with only by pause extensions
(rate, cap, tokens and last are unchanged, paused_until never decreases),
and the connection bucket attached to the final proxy result is exactly
the one local admission produced: neither a rate-limited 429/503 retry nor
a transient 5xx retry takes any bucket token before re-forwarding. -/
theorem C1_amended :
    (∀ (dl : Option ℚ) (gb : TokenBucket) (retries : ℕ) (backoff : ℚ)
        (steps : List UpstreamStep) (out : UpstreamOutcome),
        upstreamLoop dl gb retries backoff steps = some out →
        out.gbOf.rate = gb.rate ∧ out.gbOf.cap = gb.cap ∧
        out.gbOf.tokens = gb.tokens ∧ out.gbOf.last = gb.last ∧
        gb.paused_until ≤ out.gbOf.paused_until) ∧
    (∀ (aL : ℕ) (re : ℚ) (dl : Option ℚ) (gb cb : TokenBucket)
        (admitTimes : List ℚ) (steps : List UpstreamStep)
        (out : UpstreamOutcome) (cbf : TokenBucket),
        proxyRun aL re dl gb cb admitTimes steps = some (.upstream out cbf) →
        ∃ (gb1 : TokenBucket) (n : ℕ),
          localAdmission aL re dl gb cb 0 admitTimes = some (.admitted gb1 cbf n) ∧
          upstreamLoop dl gb1 0 1 steps = some out) := by
  constructor
  · intro dl gb retries backoff steps
    induction steps generalizing gb retries backoff with
    | nil =>
      intro out h
      simp [upstreamLoop] at h
    | cons step rest ih =>
      intro out h
      rw [upstreamLoop_cons] at h
      cases hev : step.ev with
      | transportError =>
        rw [hev] at h
        obtain rfl : UpstreamOutcome.transportFailure gb = out := by simpa using h
        exact ⟨rfl, rfl, rfl, rfl, le_refl _⟩
      | resp r =>
        rw [hev] at h
        dsimp only at h
        split_ifs at h with h1 h2 h3 h4
        · obtain ⟨e1, e2, e3, e4, e5⟩ := ih _ _ _ out h
          exact ⟨e1, e2, e3, e4,
            le_trans (gb.pause_paused_le step.now _) e5⟩
        · obtain rfl :
              UpstreamOutcome.rateLimitedSurfaced r.status
                (retryAfterOrFallback r.retryAfterHdr r.status) retries
                (gb.pause step.now (retryAfterOrFallback r.retryAfterHdr r.status))
              = out := by simpa using h
          exact ⟨rfl, rfl, rfl, rfl, gb.pause_paused_le step.now _⟩
        · exact ih _ _ _ out h
        · obtain rfl : UpstreamOutcome.transientSurfaced r.status retries gb = out := by
            simpa using h
          exact ⟨rfl, rfl, rfl, rfl, le_refl _⟩
        · obtain rfl : UpstreamOutcome.terminal r.status retries gb = out := by
            simpa using h
          exact ⟨rfl, rfl, rfl, rfl, le_refl _⟩
  · intro aL re dl gb cb admitTimes steps out cbf h
    unfold proxyRun at h
    cases hla : localAdmission aL re dl gb cb 0 admitTimes with
    | none =>
      rw [hla] at h
      simp at h
    | some lo =>
      rw [hla] at h
      cases lo with
      | rejected resp gb1 cb1 => simp at h
      | admitted gb1 cb1 n =>
        dsimp only at h
        cases hul : upstreamLoop dl gb1 0 1 steps with
        | none =>
          rw [hul] at h
          simp at h
        | some out2 =>
          rw [hul] at h
          dsimp only at h
          simp only [Option.some.injEq, ProxyResult.upstream.injEq] at h
          obtain ⟨ho, hcb⟩ := h
          subst ho
          subst hcb
          exact ⟨gb1, n, rfl, hul⟩

unseal Rat.add Rat.mul Rat.sub Rat.inv in
/-- C1 witness: a direct 200 at time 2 leaves the startup global bucket
untouched by the upstream loop. -/
theorem C1_witness :
    upstreamLoop none gbStart 0 1 [⟨2, 0, .resp ⟨200, none⟩⟩]
      = some (.terminal 200 0 gbStart) ∧
    ((UpstreamOutcome.terminal 200 0 gbStart).gbOf.rate = gbStart.rate ∧
      (UpstreamOutcome.terminal 200 0 gbStart).gbOf.cap = gbStart.cap ∧
      (UpstreamOutcome.terminal 200 0 gbStart).gbOf.tokens = gbStart.tokens ∧
      (UpstreamOutcome.terminal 200 0 gbStart).gbOf.last = gbStart.last ∧
      gbStart.paused_until ≤ (UpstreamOutcome.terminal 200 0 gbStart).gbOf.paused_until) :=
  ⟨by decide, C1_amended.1 none gbStart 0 1 [⟨2, 0, .resp ⟨200, none⟩⟩]
      (.terminal 200 0 gbStart) (by decide)⟩

/-- C8: after prune_and_compute_rates, the returned rate_each is
(L/60)/max(1, number of actives); every surviving client entry whose id is
active has rate exactly rate_each (given rate_each is at least the 1e-9
floor of set_rate_cap) and capacity max(1, rate_each * BURST_WINDOW);
every surviving inactive entry is quenched to rate 1e-6 with capacity 1
and has been idle for at most 300 s: entries idle beyond the eviction
threshold are removed. -/
theorem C8_rebalance (m : ConnManager) (now : ℚ)
    (hrate : (1 : ℚ)/1000000000 ≤ m.rate_each now) :
    (m.prune_and_compute_rates now).2.2
      = LIMIT_PER_MIN / 60
        / ((max 1 ((m.prune_and_compute_rates now).2.1).length : ℕ) : ℚ) ∧
    ∀ p ∈ ((m.prune_and_compute_rates now).1).clients,
      (p.1 ∈ (m.prune_and_compute_rates now).2.1 →
        p.2.rate = m.rate_each now ∧
        p.2.cap = max 1 (m.rate_each now * BURST_WINDOW)) ∧
      (p.1 ∉ (m.prune_and_compute_rates now).2.1 →
        p.2.rate = 1/1000000 ∧ p.2.cap = 1 ∧
        now - ((m.last_seen.lookup p.1).getD 0) ≤ 300) := by
  constructor
  · rfl
  · intro p hp
    have hp2 : p ∈ (m.rebalanceStep2 now).filter (fun q => ! m.evict now q.1) := hp
    rw [List.mem_filter] at hp2
    obtain ⟨hmem2, hevf⟩ := hp2
    rw [ConnManager.rebalanceStep2, List.mem_map] at hmem2
    obtain ⟨q, hq1mem, hq⟩ := hmem2
    rw [ConnManager.rebalanceStep1, List.mem_map] at hq1mem
    obtain ⟨q0, hq0mem, hq0⟩ := hq1mem
    constructor
    · intro hact
      have hact' : p.1 ∈ m.actives now := hact
      by_cases hq1 : q.1 ∈ m.actives now
      · rw [if_pos hq1] at hq
        subst hq
        by_cases hq01 : q0.1 ∈ m.actives now
        · rw [if_pos hq01] at hq0
          subst hq0
          constructor
          · rw [TokenBucket.set_rate_cap_rate]
            exact max_eq_right hrate
          · rw [TokenBucket.set_rate_cap_cap_some, ConnManager.cap_each]
            exact max_eq_right (le_max_left 1 _)
        · rw [if_neg hq01] at hq0
          subst hq0
          exact absurd hq1 hq01
      · rw [if_neg hq1] at hq
        subst hq
        exact absurd hact' hq1
    · intro hact
      have hact' : p.1 ∉ m.actives now := hact
      by_cases hq1 : q.1 ∈ m.actives now
      · rw [if_pos hq1] at hq
        subst hq
        exact absurd hq1 hact'
      · rw [if_neg hq1] at hq
        subst hq
        refine ⟨?_, ?_, ?_⟩
        · rw [TokenBucket.set_rate_cap_rate]
          exact max_eq_right (by norm_num)
        · rw [TokenBucket.set_rate_cap_cap_some]
          exact max_self 1
        · by_contra hgt
          have hlt : 300 < now - ((m.last_seen.lookup q.1).getD 0) := not_le.mp hgt
          have hevf' : (! m.evict now q.1) = true := hevf
          have hevt : m.evict now q.1 = true := by
            rw [ConnManager.evict]
            simp [hq1, hlt]
          rw [hevt] at hevf'
          simp at hevf'

unseal Rat.add Rat.mul Rat.sub Rat.inv in
/-- C8 witness: the two-connection manager with one active connection at
time 10 gets rate_each (200/60)/1, which is above the 1e-9 floor. -/
theorem C8_witness :
    (1 : ℚ)/1000000000 ≤ sampleManager.rate_each 10 ∧
    (sampleManager.prune_and_compute_rates 10).2.2
      = LIMIT_PER_MIN / 60
        / ((max 1 ((sampleManager.prune_and_compute_rates 10).2.1).length : ℕ) : ℚ) :=
  ⟨by decide, (C8_rebalance sampleManager 10 (by decide)).1⟩

end AccessApi
